import Mathlib

/-!
Verification of the dead-reckoning motion controller for the encoderless
Mad City Labs microstage (`qt3move/encoderless_wrapper.py`).

The controller is shallowly embedded below.  Physical quantities (microns)
are modelled as exact rationals; the internal bookkeeping counters are
signed integers of microsteps, as in the source.  Python's built-in
`round` (round-half-to-even on the exact value) is modelled by `pyRound`.
The hardware driver is modelled as an oracle `faults : Nat -> Bool`
telling which globally-numbered driver command raises a hardware fault;
`noFault` is the fault-free driver.  Each driver call
(`move_three_axes_m`) is recorded as a `Cmd` carrying the commanded
velocity and the signed microstep counts on the X and Y axes.
-/

namespace Qt3Move

/-- Physical constant from the source: microns per microstep (0.09525). -/
def MICRONS_PER_MICROSTEP : ℚ := 9525 / 100000

/-- Default velocity for stage movements in mm/s (0.5). -/
def DEFAULT_VELOCITY : ℚ := 1 / 2

/-- Travel distance used during homing, in microns (30000). -/
def HOMING_TRAVEL_UM : ℚ := 30000

/-- Software travel limit of the X axis in microns. -/
def X_LIMIT_UM : ℚ := 12000

/-- Software travel limit of the Y axis in microns. -/
def Y_LIMIT_UM : ℚ := 12000

/-- Backlash-compensation overshoot distance in microns. -/
def BACKLASH_COMP_UM : ℚ := 10

/-- Stable-step grid size used by step snapping: 8 microsteps in microns. -/
def stable_step_size_um : ℚ := 8 * MICRONS_PER_MICROSTEP

/-- Python's `round` on an exact rational: round to the nearest integer,
ties to the even neighbour (banker's rounding). -/
def pyRound (q : ℚ) : ℤ :=
  if q - q.floor < 1 / 2 then q.floor
  else if 1 / 2 < q - q.floor then q.floor + 1
  else if q.floor % 2 = 0 then q.floor else q.floor + 1

/-- Restate `pyRound` through Mathlib's floor and fractional part. -/
theorem pyRound_eq (q : ℚ) :
    pyRound q =
      if Int.fract q < 1 / 2 then ⌊q⌋
      else if 1 / 2 < Int.fract q then ⌊q⌋ + 1
      else if Even ⌊q⌋ then ⌊q⌋ else ⌊q⌋ + 1 := by
  have hf : (q.floor : ℤ) = ⌊q⌋ := by rw [Rat.floor_def, Rat.floor_def']
  simp only [pyRound, hf, Int.fract, Int.even_iff]

/-- The microns-to-microsteps conversion used throughout the source:
`round(delta / MICRONS_PER_MICROSTEP)`. -/
def toMicrosteps (d : ℚ) : ℤ := pyRound (d / MICRONS_PER_MICROSTEP)

/-- One driver command (`move_three_axes_m` call): commanded velocity and
the signed microstep counts on the X and Y axes. -/
structure Cmd where
  vel : ℚ
  xSteps : ℤ
  ySteps : ℤ
  deriving DecidableEq, Repr

/-- Controller state: the internal dead-reckoning counters in microsteps
(`x_pos_steps`, `y_pos_steps`), the log of driver commands issued so far,
and the running index of driver calls (used to address the fault oracle). -/
structure Stage where
  xPosSteps : ℤ
  yPosSteps : ℤ
  log : List Cmd
  cmdIdx : ℕ
  deriving DecidableEq, Repr

/-- The fault-free driver: no command ever raises `HardwareFault`. -/
def noFault : ℕ → Bool := fun _ => false

/-- Issue one driver command.  If the fault oracle marks this call the
driver raises (`Except.error` carrying the state at the moment of the
fault, counters untouched); otherwise the command is appended to the log. -/
def issueCmd (faults : ℕ → Bool) (c : Cmd) (s : Stage) : Except Stage Stage :=
  if faults s.cmdIdx then
    .error { s with cmdIdx := s.cmdIdx + 1 }
  else
    .ok { s with log := s.log ++ [c], cmdIdx := s.cmdIdx + 1 }

/-- Embedding of `set_position`: reset the internal counters so that the current
physical location is (x, y) microns. -/
def setPosition (x y : ℚ) (s : Stage) : Stage :=
  { s with xPosSteps := toMicrosteps x, yPosSteps := toMicrosteps y }

/-- Embedding of `get_position`: the current virtual position in microns, computed
from the internal counters. -/
def getPosition (s : Stage) : ℚ × ℚ :=
  ((s.xPosSteps : ℚ) * MICRONS_PER_MICROSTEP,
   (s.yPosSteps : ℚ) * MICRONS_PER_MICROSTEP)

/-- The signed hardware microstep counts computed by `_execute_move` for a
single direct move to `(tx, ty)` microns: the user-frame deltas, with the
X axis inverted for the hardware, converted to microsteps. -/
def legSteps (tx ty : ℚ) (s : Stage) : ℤ × ℤ :=
  (toMicrosteps (-(tx - (getPosition s).1)),
   toMicrosteps (ty - (getPosition s).2))

/-- Embedding of `_execute_move`: calculate and execute a single direct move.  A driver
command is issued only when one of the step counts is nonzero; afterwards
the internal counters are reset to the commanded location. -/
def executeMove (faults : ℕ → Bool) (tx ty : ℚ) (s : Stage) :
    Except Stage Stage :=
  if (legSteps tx ty s).1 ≠ 0 ∨ (legSteps tx ty s).2 ≠ 0 then
    match issueCmd faults ⟨DEFAULT_VELOCITY, (legSteps tx ty s).1, (legSteps tx ty s).2⟩ s with
    | .error e => .error e
    | .ok s1 => .ok (setPosition tx ty s1)
  else
    .ok (setPosition tx ty s)

/-- Step snapping: round a target coordinate to the nearest multiple of
the stable-step grid size. -/
def snapTarget (t : ℚ) : ℚ := (pyRound (t / stable_step_size_um) : ℚ) * stable_step_size_um

/-- The boundary check of `move_to`: both final coordinates must lie in
`[0, X_LIMIT_UM] x [0, Y_LIMIT_UM]`. -/
def inLimits (x y : ℚ) : Prop :=
  0 ≤ x ∧ x ≤ X_LIMIT_UM ∧ 0 ≤ y ∧ y ≤ Y_LIMIT_UM

instance (x y : ℚ) : Decidable (inLimits x y) := by
  unfold inLimits; infer_instance

/-- The overshoot position used for backlash compensation: past the
target by `BACKLASH_COMP_UM`, further left in X and further up in Y. -/
def overshootOf (fx fy : ℚ) : ℚ × ℚ :=
  (fx - BACKLASH_COMP_UM, fy + BACKLASH_COMP_UM)

/-- The final target of a `move_to` call: the requested coordinates,
snapped to the stable-step grid when snapping is enabled. -/
def finalTargets (snap : Bool) (tx ty : ℚ) : ℚ × ℚ :=
  (if snap then snapTarget tx else tx, if snap then snapTarget ty else ty)

/-- Embedding of `move_to`: snap the target to the stable grid (when enabled), abort
silently if the final target is outside the software limits, otherwise
move to the overshoot position and then perform the final reverse
approach to the target. -/
def moveTo (faults : ℕ → Bool) (tx ty : ℚ) (snap : Bool) (s : Stage) :
    Except Stage Stage :=
  let ftx := (finalTargets snap tx ty).1
  let fty := (finalTargets snap tx ty).2
  if inLimits ftx fty then
    match executeMove faults (overshootOf ftx fty).1 (overshootOf ftx fty).2 s with
    | .error e => .error e
    | .ok s1 => executeMove faults ftx fty s1
  else
    .ok s

/-- Embedding of `find_home`: drive Y to its bottom limit and X to its right limit
with one unbounded command each, then define the corner as (0, 0). -/
def findHome (faults : ℕ → Bool) (s : Stage) : Except Stage Stage :=
  match issueCmd faults ⟨DEFAULT_VELOCITY, 0, -(toMicrosteps HOMING_TRAVEL_UM)⟩ s with
  | .error e => .error e
  | .ok s1 =>
    match issueCmd faults ⟨DEFAULT_VELOCITY, toMicrosteps HOMING_TRAVEL_UM, 0⟩ s1 with
    | .error e => .error e
    | .ok s2 => .ok (setPosition 0 0 s2)

/-- Embedding of `return_to_home`: move back to the (0, 0) origin. -/
def returnToHome (faults : ℕ → Bool) (s : Stage) : Except Stage Stage :=
  moveTo faults 0 0 true s

/-- The state carried by a controller call's result, whether it completed
or aborted with a hardware fault. -/
def resultState : Except Stage Stage → Stage
  | .ok s => s
  | .error s => s

/-- Whether a controller call completed without a hardware fault. -/
def isOk : Except Stage Stage → Bool
  | .ok _ => true
  | .error _ => false

/-- Net signed microsteps on the X axis over a list of driver commands. -/
def netX (l : List Cmd) : ℤ := (l.map Cmd.xSteps).sum

/-- Net signed microsteps on the Y axis over a list of driver commands. -/
def netY (l : List Cmd) : ℤ := (l.map Cmd.ySteps).sum

/-- The freshly homed stage: counters at (0,0), empty command log. -/
def home0 : Stage := ⟨0, 0, [], 0⟩

/-!  Basic facts about `pyRound`. -/

/-- When `q` lies in `[n, n + 1/2)` the rounded value is `n`. -/
theorem pyRound_of_lt_half (n : ℤ) (q : ℚ) (h1 : (n : ℚ) ≤ q)
    (h2 : q < (n : ℚ) + 1 / 2) : pyRound q = n := by
  have hfl : ⌊q⌋ = n := Int.floor_eq_iff.mpr ⟨h1, by linarith⟩
  have hfr : Int.fract q < 1 / 2 := by
    rw [Int.fract, hfl]; linarith
  rw [pyRound_eq, if_pos hfr, hfl]

/-- When `q` lies in `(n + 1/2, n + 1)` the rounded value is `n + 1`. -/
theorem pyRound_of_gt_half (n : ℤ) (q : ℚ) (h1 : (n : ℚ) + 1 / 2 < q)
    (h2 : q < (n : ℚ) + 1) : pyRound q = n + 1 := by
  have hfl : ⌊q⌋ = n := Int.floor_eq_iff.mpr ⟨by linarith, by linarith⟩
  have hfr : 1 / 2 < Int.fract q := by
    rw [Int.fract, hfl]; linarith
  rw [pyRound_eq, if_neg (by linarith), if_pos hfr, hfl]

/-- Rounding an integer gives it back. -/
theorem pyRound_intCast (n : ℤ) : pyRound (n : ℚ) = n :=
  pyRound_of_lt_half n _ le_rfl (by linarith)

/-- Rounding never exceeds the argument by more than one half. -/
theorem pyRound_le (q : ℚ) : (pyRound q : ℚ) ≤ q + 1 / 2 := by
  have h0 : (⌊q⌋ : ℚ) = q - Int.fract q := by rw [Int.fract]; ring
  have h1 : 0 ≤ Int.fract q := Int.fract_nonneg q
  have h2 : Int.fract q < 1 := Int.fract_lt_one q
  rw [pyRound_eq]
  split
  · linarith
  · split
    · push_cast; linarith
    · split
      · linarith
      · push_cast; linarith

/-- Rounding never falls below the argument by more than one half. -/
theorem pyRound_ge (q : ℚ) : q - 1 / 2 ≤ (pyRound q : ℚ) := by
  have h0 : (⌊q⌋ : ℚ) = q - Int.fract q := by rw [Int.fract]; ring
  have h1 : 0 ≤ Int.fract q := Int.fract_nonneg q
  have h2 : Int.fract q < 1 := Int.fract_lt_one q
  rw [pyRound_eq]
  split
  · linarith
  · split
    · push_cast; linarith
    · split
      · linarith
      · push_cast; linarith

/-- Rounding stays within one half of the argument. -/
theorem abs_pyRound_sub (q : ℚ) : |(pyRound q : ℚ) - q| ≤ 1 / 2 := by
  rw [abs_le]
  constructor
  · have := pyRound_ge q; linarith
  · have := pyRound_le q; linarith

/-!  Concrete values of the conversion used by the controller. -/

/-- The microsteps-per-micron denominator is nonzero. -/
theorem mpm_pos : (0 : ℚ) < MICRONS_PER_MICROSTEP := by
  unfold MICRONS_PER_MICROSTEP; norm_num

/-- Converting the backlash distance: 10 microns is 105 microsteps. -/
theorem toMicrosteps_ten : toMicrosteps 10 = 105 := by
  unfold toMicrosteps MICRONS_PER_MICROSTEP
  rw [show ((10 : ℚ) / (9525 / 100000)) = 40000 / 381 by norm_num]
  rw [show (105 : ℤ) = 104 + 1 by norm_num]
  exact pyRound_of_gt_half 104 _ (by norm_num) (by norm_num)

/-- Converting minus the backlash distance. -/
theorem toMicrosteps_neg_ten : toMicrosteps (-10) = -105 := by
  unfold toMicrosteps MICRONS_PER_MICROSTEP
  rw [show ((-10 : ℚ) / (9525 / 100000)) = -40000 / 381 by norm_num]
  exact pyRound_of_lt_half (-105) _ (by norm_num) (by norm_num)

/-- Converting zero microns. -/
theorem toMicrosteps_zero : toMicrosteps 0 = 0 := by
  unfold toMicrosteps
  rw [zero_div, show ((0 : ℚ)) = ((0 : ℤ) : ℚ) by norm_num, pyRound_intCast]

/-- Converting the homing travel distance: 30000 microns is 314961
microsteps, the step count of each homing command. -/
theorem toMicrosteps_homing : toMicrosteps HOMING_TRAVEL_UM = 314961 := by
  unfold toMicrosteps HOMING_TRAVEL_UM MICRONS_PER_MICROSTEP
  rw [show ((30000 : ℚ) / (9525 / 100000)) = 120000000 / 381 by norm_num]
  rw [show (314961 : ℤ) = 314960 + 1 by norm_num]
  exact pyRound_of_gt_half 314960 _ (by norm_num) (by norm_num)

/-- Converting an exact whole number of microsteps is exact. -/
theorem toMicrosteps_mul_c (n : ℤ) :
    toMicrosteps ((n : ℚ) * MICRONS_PER_MICROSTEP) = n := by
  unfold toMicrosteps
  rw [mul_div_assoc, div_self (ne_of_gt mpm_pos), mul_one, pyRound_intCast]

/-- Converting a whole number of microsteps minus the 10-micron backlash
distance: the overshoot leg loses exactly 105 microsteps. -/
theorem toMicrosteps_mul_c_sub_ten (n : ℤ) :
    toMicrosteps ((n : ℚ) * MICRONS_PER_MICROSTEP - 10) = n - 105 := by
  unfold toMicrosteps MICRONS_PER_MICROSTEP
  rw [show (((n : ℚ) * (9525 / 100000) - 10) / (9525 / 100000))
      = (n : ℚ) - 40000 / 381 by field_simp; ring]
  exact pyRound_of_lt_half (n - 105) _ (by push_cast; linarith) (by push_cast; linarith)

/-- Converting a whole number of microsteps plus the 10-micron backlash
distance: the overshoot leg gains exactly 105 microsteps. -/
theorem toMicrosteps_mul_c_add_ten (n : ℤ) :
    toMicrosteps ((n : ℚ) * MICRONS_PER_MICROSTEP + 10) = n + 105 := by
  unfold toMicrosteps MICRONS_PER_MICROSTEP
  rw [show (((n : ℚ) * (9525 / 100000) + 10) / (9525 / 100000))
      = (n : ℚ) + 40000 / 381 by field_simp; ring]
  rw [show n + 105 = (n + 104) + 1 by ring]
  exact pyRound_of_gt_half (n + 104) _ (by push_cast; linarith) (by push_cast; linarith)

/-!  Facts about step snapping. -/

/-- The stable-step grid size is eight microsteps, hence a snapped target
converts to a whole multiple of eight microsteps. -/
theorem toMicrosteps_snapTarget (t : ℚ) :
    toMicrosteps (snapTarget t) = 8 * pyRound (t / stable_step_size_um) := by
  unfold snapTarget stable_step_size_um
  rw [show ((pyRound (t / (8 * MICRONS_PER_MICROSTEP)) : ℚ)) * (8 * MICRONS_PER_MICROSTEP)
      = ((8 * pyRound (t / (8 * MICRONS_PER_MICROSTEP)) : ℤ) : ℚ) * MICRONS_PER_MICROSTEP by
        push_cast; ring]
  exact toMicrosteps_mul_c _

/-- A snapped target is exactly representable by the internal counters. -/
theorem snapTarget_repr (t : ℚ) :
    ((toMicrosteps (snapTarget t) : ℚ)) * MICRONS_PER_MICROSTEP = snapTarget t := by
  rw [toMicrosteps_snapTarget]
  unfold snapTarget stable_step_size_um
  push_cast
  ring

/-- Snapping the origin leaves it fixed. -/
theorem snapTarget_zero : snapTarget 0 = 0 := by
  unfold snapTarget
  rw [zero_div, show ((0 : ℚ)) = ((0 : ℤ) : ℚ) by norm_num, pyRound_intCast]
  norm_num

/-!  Structural lemmas about the execution model. -/

/-- A fault-free driver call always succeeds and appends to the log. -/
theorem issueCmd_noFault (c : Cmd) (s : Stage) :
    issueCmd noFault c s =
      .ok { s with log := s.log ++ [c], cmdIdx := s.cmdIdx + 1 } := by
  simp [issueCmd, noFault]

/-- Closed form of a fault-free `_execute_move`: the command is issued
exactly when one of the step counts is nonzero, and the internal counters
always end at the commanded target. -/
theorem executeMove_noFault (tx ty : ℚ) (s : Stage) :
    executeMove noFault tx ty s =
      .ok (setPosition tx ty
        (if (legSteps tx ty s).1 ≠ 0 ∨ (legSteps tx ty s).2 ≠ 0 then
          { s with
            log := s.log ++ [⟨DEFAULT_VELOCITY, (legSteps tx ty s).1, (legSteps tx ty s).2⟩],
            cmdIdx := s.cmdIdx + 1 }
        else s)) := by
  unfold executeMove
  split
  · rw [issueCmd_noFault]
  · rfl

example : getPosition home0 = (0, 0) := by
  simp [getPosition, home0]

/-!  The `_wait_for_move` poll loop, modelled against a stream of
`move_status` readings.  `status n` is the value returned by the driver's
move-status flag at the n-th poll; the loop keeps sleeping while the flag
reads true.  The fuel argument lets us observe finite prefixes of a run:
the loop of the source has no other exit. -/

/-- The poll loop of `_wait_for_move`, started at poll index `i` and
observed for `fuel` polls: returns the index of the first poll at which
the flag reads false, if that happens within the window. -/
def waitFrom (status : ℕ → Bool) : ℕ → ℕ → Option ℕ
  | 0, _ => none
  | fuel + 1, i => if status i then waitFrom status fuel (i + 1) else some i

/-- Embedding of `_wait_for_move`, observed for `fuel` polls from the start. -/
def waitForMove (status : ℕ → Bool) (fuel : ℕ) : Option ℕ :=
  waitFrom status fuel 0

/-- The wait loop terminates on the given status stream: some finite
observation window sees it return. -/
def waitTerminates (status : ℕ → Bool) : Prop :=
  ∃ fuel r, waitForMove status fuel = some r

/-- On an all-true status stream the loop never returns, whatever the
observation window. -/
theorem waitFrom_none_of_all_true (status : ℕ → Bool)
    (h : ∀ n, status n = true) :
    ∀ fuel i, waitFrom status fuel i = none := by
  intro fuel
  induction fuel with
  | zero => intro i; rfl
  | succ m ih =>
    intro i
    unfold waitFrom
    rw [h i]
    simpa using ih (i + 1)

/-- If the loop returns at index `r` then the flag read false there. -/
theorem waitFrom_some_status (status : ℕ → Bool) :
    ∀ fuel i r, waitFrom status fuel i = some r → status r = false := by
  intro fuel
  induction fuel with
  | zero => intro i r h; exact absurd h (by simp [waitFrom])
  | succ m ih =>
    intro i r h
    unfold waitFrom at h
    by_cases hs : status i
    · rw [if_pos hs] at h; exact ih (i + 1) r h
    · rw [if_neg hs] at h
      cases h
      exact Bool.eq_false_iff.mpr hs

/-- If the flag reads false within the window, the loop returns. -/
theorem waitFrom_some_of_false (status : ℕ → Bool) :
    ∀ fuel i j, j < fuel → status (i + j) = false →
      ∃ r, waitFrom status fuel i = some r := by
  intro fuel
  induction fuel with
  | zero => intro i j hj _; omega
  | succ m ih =>
    intro i j hj hfalse
    unfold waitFrom
    by_cases hs : status i
    · rw [if_pos hs]
      rcases j with _ | j
      · rw [Nat.add_zero] at hfalse; rw [hfalse] at hs; cases hs
      · exact ih (i + 1) j (by omega) (by rw [show i + 1 + j = i + (j + 1) by omega]; exact hfalse)
    · rw [if_neg hs]; exact ⟨i, rfl⟩

/-!  The spec's rounding rule, for comparison with the source's
conversion.  This definition follows the spec's words, not the source:
round to nearest with ties away from zero. -/

/-- Round half away from zero, as the specification prescribes for the
physical-units-to-microsteps conversion: `sign(d) * floor(|d| + 1/2)`. -/
def roundHalfAwayFromZero (q : ℚ) : ℤ :=
  if 0 ≤ q then ⌊q + 1 / 2⌋ else -⌊-q + 1 / 2⌋

/-- At an exact tie, `pyRound` returns the even neighbour. -/
theorem pyRound_tie_even (q : ℚ) (h : Int.fract q = 1 / 2) :
    Even (pyRound q) := by
  rw [pyRound_eq, h]
  rw [if_neg (by norm_num), if_neg (by norm_num)]
  by_cases he : Even ⌊q⌋
  · rw [if_pos he]; exact he
  · rw [if_neg he]
    exact Int.even_add_one.mpr he

/-- The value of `pyRound` at one half: the tie goes down to the even 0. -/
theorem pyRound_one_half : pyRound (1 / 2 : ℚ) = 0 := by
  have hfl : ⌊(1 / 2 : ℚ)⌋ = 0 := Int.floor_eq_iff.mpr ⟨by norm_num, by norm_num⟩
  have hfr : Int.fract (1 / 2 : ℚ) = 1 / 2 := by
    rw [Int.fract, hfl]; norm_num
  rw [pyRound_eq, hfr, if_neg (by norm_num), if_neg (by norm_num), hfl,
    if_pos (even_zero)]

/-!  Claim C7: the wait-for-move poll loop and its (absent) timeout. -/

/-- Claim C7, as stated, is false: on an execution where the move-status
flag never becomes "not moving" (the all-true status stream), the
`_wait_for_move` loop of the source does not terminate after boundedly
many polls — no observation window ever sees it return, so it neither
finishes nor raises. -/
theorem c7_counterexample : ¬ waitTerminates (fun _ => true) := by
  rintro ⟨fuel, r, h⟩
  rw [waitForMove, waitFrom_none_of_all_true (fun _ => true) (fun _ => rfl) fuel 0] at h
  cases h

/-- Claim C7 amended: the wait loop has no overall timeout at all.  It
terminates exactly when the driver's move-status flag eventually reads
false, and otherwise polls forever. -/
theorem c7_amended (status : ℕ → Bool) :
    waitTerminates status ↔ ∃ n, status n = false := by
  constructor
  · rintro ⟨fuel, r, h⟩
    exact ⟨r, waitFrom_some_status status fuel 0 r h⟩
  · rintro ⟨n, hn⟩
    rcases waitFrom_some_of_false status (n + 1) 0 n (by omega) (by simpa using hn) with ⟨r, hr⟩
    exact ⟨n + 1, r, hr⟩

/-!  Claim C6: the rounding rule of the conversion. -/

/-- Claim C6, as stated, is false: the conversion uses Python's `round`,
which rounds half to even, not half away from zero.  At a physical delta
of half a microstep (9525/200000 microns) the source computes 0
microsteps while the claimed round-half-away-from-zero rule gives 1. -/
theorem c6_counterexample :
    toMicrosteps (9525 / 200000) = 0 ∧
      roundHalfAwayFromZero ((9525 / 200000) / MICRONS_PER_MICROSTEP) = 1 := by
  have harg : ((9525 : ℚ) / 200000) / MICRONS_PER_MICROSTEP = 1 / 2 := by
    unfold MICRONS_PER_MICROSTEP; norm_num
  constructor
  · unfold toMicrosteps
    rw [harg, pyRound_one_half]
  · rw [harg]
    unfold roundHalfAwayFromZero
    rw [if_pos (by norm_num)]
    rw [show ((1 : ℚ) / 2 + 1 / 2) = ((1 : ℤ) : ℚ) by norm_num]
    exact Int.floor_intCast 1

/-- Claim C6 amended: the conversion rounds the exact quotient
`delta / MICRONS_PER_MICROSTEP` to the nearest integer with ties to the
even neighbour (Python's banker's rounding): the result is always within
one half of the quotient, and at an exact tie the result is even. -/
theorem c6_amended (d : ℚ) :
    |(toMicrosteps d : ℚ) - d / MICRONS_PER_MICROSTEP| ≤ 1 / 2 ∧
      (Int.fract (d / MICRONS_PER_MICROSTEP) = 1 / 2 → Even (toMicrosteps d)) := by
  constructor
  · exact abs_pyRound_sub _
  · intro h
    exact pyRound_tie_even _ h

/-- Witness for the amended claim C6, at the half-microstep tie: the
result 0 is within one half of the quotient 1/2, and it is even. -/
theorem c6_witness :
    |(toMicrosteps (9525 / 200000) : ℚ) - (9525 / 200000) / MICRONS_PER_MICROSTEP| ≤ 1 / 2 ∧
      Even (toMicrosteps (9525 / 200000)) := by
  refine ⟨(c6_amended (9525 / 200000)).1, (c6_amended (9525 / 200000)).2 ?_⟩
  rw [show ((9525 : ℚ) / 200000) / MICRONS_PER_MICROSTEP = 1 / 2 by
    unfold MICRONS_PER_MICROSTEP; norm_num]
  rw [Int.fract, show ⌊(1 / 2 : ℚ)⌋ = 0 from Int.floor_eq_iff.mpr ⟨by norm_num, by norm_num⟩]
  norm_num

/-!  Claim C10: the bounds check applies only to the final target, never
to the overshoot position of the first leg. -/

/-- Claim C10: for every accepted final target, if its X coordinate lies
within the 10-micron backlash distance of the X minimum bound then the
first leg's commanded overshoot position is below the minimum bound, and
symmetrically at the Y maximum bound; in particular `return_to_home`
(target (0,0), snapped) is accepted yet commands the out-of-bounds
overshoot position (-10, 10). -/
theorem c10_overshoot_out_of_bounds :
    (∀ (tx ty : ℚ) (snap : Bool),
      inLimits (finalTargets snap tx ty).1 (finalTargets snap tx ty).2 →
        ((finalTargets snap tx ty).1 < BACKLASH_COMP_UM →
          (overshootOf (finalTargets snap tx ty).1 (finalTargets snap tx ty).2).1 < 0) ∧
        (Y_LIMIT_UM - BACKLASH_COMP_UM < (finalTargets snap tx ty).2 →
          Y_LIMIT_UM < (overshootOf (finalTargets snap tx ty).1 (finalTargets snap tx ty).2).2)) ∧
    overshootOf (finalTargets true 0 0).1 (finalTargets true 0 0).2 = (-10, 10) ∧
    inLimits (finalTargets true 0 0).1 (finalTargets true 0 0).2 ∧
    ¬ inLimits (overshootOf (finalTargets true 0 0).1 (finalTargets true 0 0).2).1
        (overshootOf (finalTargets true 0 0).1 (finalTargets true 0 0).2).2 := by
  have hf0 : finalTargets true 0 0 = (0, 0) := by
    simp [finalTargets, snapTarget_zero]
  refine ⟨?_, ?_, ?_, ?_⟩
  · intro tx ty snap _
    constructor
    · intro h
      unfold overshootOf BACKLASH_COMP_UM at *
      simp only
      linarith
    · intro h
      unfold overshootOf BACKLASH_COMP_UM Y_LIMIT_UM at *
      simp only
      linarith
  · rw [hf0]
    unfold overshootOf BACKLASH_COMP_UM
    norm_num
  · rw [hf0]
    unfold inLimits X_LIMIT_UM Y_LIMIT_UM
    norm_num
  · rw [hf0]
    unfold overshootOf inLimits BACKLASH_COMP_UM
    norm_num

/-- Witness for claim C10: the in-bounds target (5, 0) (no snapping) has
its X coordinate within the backlash distance of the minimum bound, and
the commanded overshoot position of the first leg is negative. -/
theorem c10_witness :
    (overshootOf (finalTargets false 5 0).1 (finalTargets false 5 0).2).1 < 0 :=
  (c10_overshoot_out_of_bounds.1 5 0 false
      (by unfold inLimits finalTargets X_LIMIT_UM Y_LIMIT_UM; norm_num)).1
    (by unfold finalTargets BACKLASH_COMP_UM; norm_num)

/-!  Claim C9: homing ends with the position defined as the origin. -/

/-- Shape of a fault-free homing run: two driver commands carrying the
full signed homing travel, then the counters are reset to (0, 0). -/
theorem findHome_noFault (s : Stage) :
    findHome noFault s =
      .ok { s with
        xPosSteps := 0, yPosSteps := 0,
        log := s.log ++ [⟨DEFAULT_VELOCITY, 0, -314961⟩, ⟨DEFAULT_VELOCITY, 314961, 0⟩],
        cmdIdx := s.cmdIdx + 2 } := by
  unfold findHome
  rw [issueCmd_noFault]
  simp only
  rw [issueCmd_noFault]
  simp only [toMicrosteps_homing]
  unfold setPosition
  simp [toMicrosteps_zero, List.append_assoc]

/-- Claim C9: after `find_home()` completes without a driver fault,
`get_position()` returns exactly (0, 0). -/
theorem c9_home_position (faults : ℕ → Bool) (s s' : Stage)
    (h : findHome faults s = .ok s') : getPosition s' = (0, 0) := by
  unfold findHome issueCmd at h
  by_cases h1 : faults s.cmdIdx = true
  · rw [if_pos h1] at h
    simp only at h
    cases h
  · rw [if_neg h1] at h
    simp only at h
    by_cases h2 : faults (s.cmdIdx + 1) = true
    · rw [if_pos h2] at h
      simp only at h
      cases h
    · rw [if_neg h2] at h
      simp only at h
      cases h
      unfold getPosition setPosition
      simp [toMicrosteps_zero]

/-- Witness for claim C9: a concrete fault-free homing run from the
unreferenced stage ends with reported position (0, 0). -/
theorem c9_witness :
    getPosition ⟨0, 0, [⟨DEFAULT_VELOCITY, 0, -314961⟩, ⟨DEFAULT_VELOCITY, 314961, 0⟩], 2⟩
      = (0, 0) :=
  c9_home_position noFault home0 _ (by rw [findHome_noFault]; rfl)

/-!  Claim C2: the out-of-bounds policy of `move_to`. -/

/-- On any out-of-bounds final target, `move_to` returns normally with
the state unchanged, whatever the fault oracle: no exception, no driver
command, no clamping. -/
theorem moveTo_out_of_limits (faults : ℕ → Bool) (tx ty : ℚ) (snap : Bool)
    (s : Stage)
    (h : ¬ inLimits (finalTargets snap tx ty).1 (finalTargets snap tx ty).2) :
    moveTo faults tx ty snap s = .ok s := by
  unfold moveTo
  rw [if_neg h]

/-- Snapping the target 12050 lands just above 12050 microns. -/
theorem snapTarget_12050 : snapTarget 12050 = 6025134 / 500 := by
  unfold snapTarget stable_step_size_um MICRONS_PER_MICROSTEP
  rw [show ((12050 : ℚ) / (8 * (9525 / 100000))) = 6025000 / 381 by norm_num]
  rw [show pyRound (6025000 / 381 : ℚ) = 15813 + 1 from
    pyRound_of_gt_half 15813 _ (by norm_num) (by norm_num)]
  norm_num

/-- Claim C2, as stated, is false on both of its branches: the source has
neither a clamp policy nor a strict `OutOfRangeRequest` policy.  For the
target
(X_LIMIT_UM + 50, 0) = (12050, 0) the call returns normally (raising
nothing), issues zero driver commands, and leaves the position at (0, 0)
rather than clamping it to (12000, 0). -/
theorem c2_counterexample :
    moveTo noFault 12050 0 true home0 = .ok home0 ∧
      (resultState (moveTo noFault 12050 0 true home0)).log = [] ∧
      getPosition (resultState (moveTo noFault 12050 0 true home0)) = (0, 0) ∧
      getPosition (resultState (moveTo noFault 12050 0 true home0)) ≠ (X_LIMIT_UM, 0) := by
  have hout : ¬ inLimits (finalTargets true 12050 0).1 (finalTargets true 12050 0).2 := by
    unfold finalTargets
    simp only [if_pos]
    rw [snapTarget_12050]
    unfold inLimits X_LIMIT_UM
    norm_num
  have hmv := moveTo_out_of_limits noFault 12050 0 true home0 hout
  have hres : resultState (moveTo noFault 12050 0 true home0) = home0 := by
    rw [hmv]; rfl
  have hpos : getPosition home0 = (0, 0) := by
    unfold getPosition home0; norm_num
  refine ⟨hmv, by rw [hres]; rfl, by rw [hres, hpos], ?_⟩
  rw [hres, hpos]
  unfold X_LIMIT_UM
  intro hcontra
  have := congrArg Prod.fst hcontra
  norm_num at this

/-- Claim C2 amended: the source implements a single silent-reject
policy.  Whenever the snapped final target falls outside
`[0, X_LIMIT_UM] x [0, Y_LIMIT_UM]`, `move_to` returns normally (it
raises nothing), issues zero driver commands, and leaves the position
counters unchanged; it neither clamps the target nor raises
`OutOfRangeRequest`. -/
theorem c2_amended (faults : ℕ → Bool) (tx ty : ℚ) (snap : Bool) (s : Stage)
    (h : ¬ inLimits (finalTargets snap tx ty).1 (finalTargets snap tx ty).2) :
    moveTo faults tx ty snap s = .ok s ∧
      (resultState (moveTo faults tx ty snap s)).log = s.log ∧
      getPosition (resultState (moveTo faults tx ty snap s)) = getPosition s := by
  have hmv := moveTo_out_of_limits faults tx ty snap s h
  exact ⟨hmv, by rw [hmv]; rfl, by rw [hmv]; rfl⟩

/-- Witness for the amended claim C2 at the concrete out-of-bounds
target (12050, 0). -/
theorem c2_witness :
    moveTo noFault 12050 0 true home0 = .ok home0 ∧
      (resultState (moveTo noFault 12050 0 true home0)).log = home0.log ∧
      getPosition (resultState (moveTo noFault 12050 0 true home0)) = getPosition home0 :=
  c2_amended noFault 12050 0 true home0 (by
    unfold finalTargets
    simp only [if_pos]
    rw [snapTarget_12050]
    unfold inLimits X_LIMIT_UM
    norm_num)

/-!  Shape of an accepted, fault-free `move_to`. -/

/-- On an accepted target, a fault-free `move_to` completes and its final
state is the second leg's `set_position` at the final target. -/
theorem moveTo_noFault_inLimits (tx ty : ℚ) (snap : Bool) (s : Stage)
    (h : inLimits (finalTargets snap tx ty).1 (finalTargets snap tx ty).2) :
    ∃ s1 : Stage,
      moveTo noFault tx ty snap s =
        .ok (setPosition (finalTargets snap tx ty).1 (finalTargets snap tx ty).2 s1) := by
  unfold moveTo
  rw [if_pos h]
  simp only [executeMove_noFault]
  exact ⟨_, rfl⟩

/-- On an accepted target, the internal counters end at the conversion of
the final (snapped) target, whatever the starting state. -/
theorem moveTo_noFault_counters (tx ty : ℚ) (snap : Bool) (s : Stage)
    (h : inLimits (finalTargets snap tx ty).1 (finalTargets snap tx ty).2) :
    (resultState (moveTo noFault tx ty snap s)).xPosSteps
        = toMicrosteps (finalTargets snap tx ty).1 ∧
      (resultState (moveTo noFault tx ty snap s)).yPosSteps
        = toMicrosteps (finalTargets snap tx ty).2 := by
  obtain ⟨s1, hs1⟩ := moveTo_noFault_inLimits tx ty snap s h
  rw [hs1]
  exact ⟨rfl, rfl⟩

/-!  Claim C1: chunking.  The source never splits a move: each leg is a
single driver command carrying the whole signed delta, and the homing
commands carry the whole homing travel. -/

/-- Claim C1, as stated, is false: `find_home` issues single driver
commands of magnitude 314961 microsteps, far beyond the 30000-microstep
chunk ceiling, with no splitting. -/
theorem c1_counterexample :
    (resultState (findHome noFault home0)).log
        = [⟨DEFAULT_VELOCITY, 0, -314961⟩, ⟨DEFAULT_VELOCITY, 314961, 0⟩] ∧
      (30000 : ℤ) < |(-314961 : ℤ)| := by
  constructor
  · rw [findHome_noFault]
    rfl
  · norm_num

/-- Claim C1 amended: there is no chunking at all.  A fault-free
`move_to` call issues at most two driver commands in total (one
unbounded command per leg, each carrying that leg's entire signed
microstep count), and `find_home` issues exactly two, one per axis,
carrying the full homing travel. -/
theorem c1_amended :
    (∀ (tx ty : ℚ) (snap : Bool) (s : Stage),
      (resultState (moveTo noFault tx ty snap s)).log.length ≤ s.log.length + 2) ∧
    ∀ s : Stage, (resultState (findHome noFault s)).log.length = s.log.length + 2 := by
  constructor
  · intro tx ty snap s
    by_cases h : inLimits (finalTargets snap tx ty).1 (finalTargets snap tx ty).2
    · unfold moveTo
      rw [if_pos h]
      simp only [executeMove_noFault, resultState, setPosition]
      split
      · split <;> simp
      · split <;> simp
    · rw [moveTo_out_of_limits noFault tx ty snap s h]
      simp only [resultState]
      omega
  · intro s
    rw [findHome_noFault]
    simp only [resultState]
    simp

/-!  Claim C4: accuracy of the reported position after a move. -/

/-- The counters represent any physical coordinate to within half a
microstep. -/
theorem abs_toMicrosteps_repr (t : ℚ) :
    |(toMicrosteps t : ℚ) * MICRONS_PER_MICROSTEP - t| ≤ 9525 / 200000 := by
  have h := abs_pyRound_sub (t / MICRONS_PER_MICROSTEP)
  have hc : (0 : ℚ) < MICRONS_PER_MICROSTEP := mpm_pos
  have key : (toMicrosteps t : ℚ) * MICRONS_PER_MICROSTEP - t
      = ((pyRound (t / MICRONS_PER_MICROSTEP) : ℚ) - t / MICRONS_PER_MICROSTEP)
          * MICRONS_PER_MICROSTEP := by
    unfold toMicrosteps
    field_simp
  rw [key, abs_mul, abs_of_pos hc]
  calc |(pyRound (t / MICRONS_PER_MICROSTEP) : ℚ) - t / MICRONS_PER_MICROSTEP|
        * MICRONS_PER_MICROSTEP
      ≤ (1 / 2) * MICRONS_PER_MICROSTEP := by
        exact mul_le_mul_of_nonneg_right h (le_of_lt hc)
    _ = 9525 / 200000 := by unfold MICRONS_PER_MICROSTEP; norm_num

/-- Snapping the target 3/10 collapses it to the origin. -/
theorem snapTarget_three_tenths : snapTarget (3 / 10) = 0 := by
  unfold snapTarget stable_step_size_um MICRONS_PER_MICROSTEP
  rw [show ((3 / 10 : ℚ) / (8 * (9525 / 100000))) = 50 / 127 by norm_num]
  rw [show pyRound (50 / 127 : ℚ) = 0 from
    pyRound_of_lt_half 0 _ (by norm_num) (by norm_num)]
  norm_num

/-- Claim C4, as stated, is false: with step snapping enabled (the
source's default), the in-bounds target (3/10, 0) completes without
fault, yet the reported position is (0, 0) — off by 0.3 microns on X,
more than the one-microstep tolerance of 0.09525. -/
theorem c4_counterexample :
    isOk (moveTo noFault (3 / 10) 0 true home0) = true ∧
      getPosition (resultState (moveTo noFault (3 / 10) 0 true home0)) = (0, 0) ∧
      ¬ |(getPosition (resultState (moveTo noFault (3 / 10) 0 true home0))).1 - 3 / 10|
          ≤ 9525 / 100000 := by
  have hsnap : finalTargets true (3 / 10) 0 = (0, 0) := by
    unfold finalTargets
    rw [if_pos rfl, if_pos rfl, snapTarget_three_tenths, snapTarget_zero]
  have hin : inLimits (finalTargets true (3 / 10) 0).1 (finalTargets true (3 / 10) 0).2 := by
    rw [hsnap]
    unfold inLimits X_LIMIT_UM Y_LIMIT_UM
    norm_num
  obtain ⟨s1, hs1⟩ := moveTo_noFault_inLimits (3 / 10) 0 true home0 hin
  have hpos : getPosition (resultState (moveTo noFault (3 / 10) 0 true home0)) = (0, 0) := by
    rw [hs1]
    simp only [resultState]
    rw [hsnap]
    unfold getPosition setPosition
    simp [toMicrosteps_zero]
  refine ⟨by rw [hs1]; rfl, hpos, ?_⟩
  rw [hpos]
  rw [show (((0 : ℚ), (0 : ℚ)).1 - 3 / 10) = -(3 / 10) by norm_num]
  rw [abs_neg, abs_of_pos (by norm_num : (0 : ℚ) < 3 / 10)]
  norm_num

/-- Claim C4 amended: the one-microstep accuracy guarantee holds when
step snapping is disabled.  For every in-bounds target, a fault-free
`move_to` with `snap_to_stable_step=False` ends with the reported
position within 0.09525 microns of the request on each axis (in fact
within half a microstep). -/
theorem c4_amended (tx ty : ℚ) (s : Stage) (h : inLimits tx ty) :
    |(getPosition (resultState (moveTo noFault tx ty false s))).1 - tx| ≤ 9525 / 100000 ∧
      |(getPosition (resultState (moveTo noFault tx ty false s))).2 - ty| ≤ 9525 / 100000 := by
  have hft : finalTargets false tx ty = (tx, ty) := rfl
  have h' : inLimits (finalTargets false tx ty).1 (finalTargets false tx ty).2 := h
  obtain ⟨s1, hs1⟩ := moveTo_noFault_inLimits tx ty false s h'
  rw [hs1]
  simp only [resultState]
  rw [hft]
  unfold getPosition setPosition
  simp only
  constructor
  · exact le_trans (abs_toMicrosteps_repr tx) (by norm_num)
  · exact le_trans (abs_toMicrosteps_repr ty) (by norm_num)

/-- Witness for the amended claim C4 at the in-bounds target (100, 50). -/
theorem c4_witness :
    |(getPosition (resultState (moveTo noFault 100 50 false home0))).1 - 100| ≤ 9525 / 100000 ∧
      |(getPosition (resultState (moveTo noFault 100 50 false home0))).2 - 50| ≤ 9525 / 100000 :=
  c4_amended 100 50 home0 (by unfold inLimits X_LIMIT_UM Y_LIMIT_UM; norm_num)

/-!  Claim C3: the final approach direction is fixed. -/

/-- After the overshoot leg, the X step count of the reverse approach is
strictly negative: the counters sit at the rounded overshoot, a full
backlash distance (about 105 microsteps) left of the target, so the
hardware X command (user delta negated) is negative. -/
theorem finalApproachX_neg (f : ℚ) :
    toMicrosteps (-(f - ((toMicrosteps (f - BACKLASH_COMP_UM) : ℚ))
        * MICRONS_PER_MICROSTEP)) < 0 := by
  have hc : (0 : ℚ) < MICRONS_PER_MICROSTEP := mpm_pos
  set A : ℤ := toMicrosteps (f - BACKLASH_COMP_UM) with hAdef
  have hA : (A : ℚ) ≤ (f - BACKLASH_COMP_UM) / MICRONS_PER_MICROSTEP + 1 / 2 := by
    rw [hAdef]
    exact pyRound_le _
  have hsplit : (f - BACKLASH_COMP_UM) / MICRONS_PER_MICROSTEP
      = f / MICRONS_PER_MICROSTEP - BACKLASH_COMP_UM / MICRONS_PER_MICROSTEP := by
    ring
  have hB : BACKLASH_COMP_UM / MICRONS_PER_MICROSTEP = 40000 / 381 := by
    unfold BACKLASH_COMP_UM MICRONS_PER_MICROSTEP
    norm_num
  have key : toMicrosteps (-(f - (A : ℚ) * MICRONS_PER_MICROSTEP))
      = pyRound ((A : ℚ) - f / MICRONS_PER_MICROSTEP) := by
    unfold toMicrosteps
    congr 1
    field_simp
  rw [key]
  have h1 := pyRound_le ((A : ℚ) - f / MICRONS_PER_MICROSTEP)
  have hlt : (pyRound ((A : ℚ) - f / MICRONS_PER_MICROSTEP) : ℚ) < 0 := by
    rw [hsplit, hB] at hA
    linarith
  exact_mod_cast hlt

/-- After the overshoot leg, the Y step count of the reverse approach is
strictly negative: the counters sit at the rounded overshoot, a full
backlash distance above the target, so the hardware Y command (the user
delta itself) is negative. -/
theorem finalApproachY_neg (f : ℚ) :
    toMicrosteps (f - ((toMicrosteps (f + BACKLASH_COMP_UM) : ℚ))
        * MICRONS_PER_MICROSTEP) < 0 := by
  have hc : (0 : ℚ) < MICRONS_PER_MICROSTEP := mpm_pos
  set B : ℤ := toMicrosteps (f + BACKLASH_COMP_UM) with hBdef
  have hA : (f + BACKLASH_COMP_UM) / MICRONS_PER_MICROSTEP - 1 / 2 ≤ (B : ℚ) := by
    rw [hBdef]
    exact pyRound_ge _
  have hsplit : (f + BACKLASH_COMP_UM) / MICRONS_PER_MICROSTEP
      = f / MICRONS_PER_MICROSTEP + BACKLASH_COMP_UM / MICRONS_PER_MICROSTEP := by
    ring
  have hB : BACKLASH_COMP_UM / MICRONS_PER_MICROSTEP = 40000 / 381 := by
    unfold BACKLASH_COMP_UM MICRONS_PER_MICROSTEP
    norm_num
  have key : toMicrosteps (f - (B : ℚ) * MICRONS_PER_MICROSTEP)
      = pyRound (f / MICRONS_PER_MICROSTEP - (B : ℚ)) := by
    unfold toMicrosteps
    congr 1
    field_simp
    ring
  rw [key]
  have h1 := pyRound_le (f / MICRONS_PER_MICROSTEP - (B : ℚ))
  have hlt : (pyRound (f / MICRONS_PER_MICROSTEP - (B : ℚ)) : ℚ) < 0 := by
    rw [hsplit, hB] at hA
    linarith
  exact_mod_cast hlt

/-- Claim C3: on every accepted `move_to`, the last driver command has
strictly negative signed microsteps on both hardware axes — the fixed
canonical approach direction (towards user +X, user −Y) — regardless of
the requested target, the starting position, or the snap setting. -/
theorem c3_final_approach (tx ty : ℚ) (snap : Bool) (s : Stage)
    (h : inLimits (finalTargets snap tx ty).1 (finalTargets snap tx ty).2) :
    ((resultState (moveTo noFault tx ty snap s)).log.getLastD ⟨0, 0, 0⟩).xSteps < 0 ∧
      ((resultState (moveTo noFault tx ty snap s)).log.getLastD ⟨0, 0, 0⟩).ySteps < 0 := by
  unfold moveTo
  rw [if_pos h]
  simp only [executeMove_noFault]
  have hx : (legSteps (finalTargets snap tx ty).1 (finalTargets snap tx ty).2
      (setPosition (overshootOf (finalTargets snap tx ty).1 (finalTargets snap tx ty).2).1
        (overshootOf (finalTargets snap tx ty).1 (finalTargets snap tx ty).2).2
        (if (legSteps (overshootOf (finalTargets snap tx ty).1 (finalTargets snap tx ty).2).1
              (overshootOf (finalTargets snap tx ty).1 (finalTargets snap tx ty).2).2 s).1 ≠ 0 ∨
            (legSteps (overshootOf (finalTargets snap tx ty).1 (finalTargets snap tx ty).2).1
              (overshootOf (finalTargets snap tx ty).1 (finalTargets snap tx ty).2).2 s).2 ≠ 0
          then
            { s with
              log := s.log ++ [⟨DEFAULT_VELOCITY,
                (legSteps (overshootOf (finalTargets snap tx ty).1
                    (finalTargets snap tx ty).2).1
                  (overshootOf (finalTargets snap tx ty).1 (finalTargets snap tx ty).2).2 s).1,
                (legSteps (overshootOf (finalTargets snap tx ty).1
                    (finalTargets snap tx ty).2).1
                  (overshootOf (finalTargets snap tx ty).1 (finalTargets snap tx ty).2).2 s).2⟩],
              cmdIdx := s.cmdIdx + 1 }
          else s))).1 < 0 :=
    finalApproachX_neg (finalTargets snap tx ty).1
  have hy : (legSteps (finalTargets snap tx ty).1 (finalTargets snap tx ty).2
      (setPosition (overshootOf (finalTargets snap tx ty).1 (finalTargets snap tx ty).2).1
        (overshootOf (finalTargets snap tx ty).1 (finalTargets snap tx ty).2).2
        (if (legSteps (overshootOf (finalTargets snap tx ty).1 (finalTargets snap tx ty).2).1
              (overshootOf (finalTargets snap tx ty).1 (finalTargets snap tx ty).2).2 s).1 ≠ 0 ∨
            (legSteps (overshootOf (finalTargets snap tx ty).1 (finalTargets snap tx ty).2).1
              (overshootOf (finalTargets snap tx ty).1 (finalTargets snap tx ty).2).2 s).2 ≠ 0
          then
            { s with
              log := s.log ++ [⟨DEFAULT_VELOCITY,
                (legSteps (overshootOf (finalTargets snap tx ty).1
                    (finalTargets snap tx ty).2).1
                  (overshootOf (finalTargets snap tx ty).1 (finalTargets snap tx ty).2).2 s).1,
                (legSteps (overshootOf (finalTargets snap tx ty).1
                    (finalTargets snap tx ty).2).1
                  (overshootOf (finalTargets snap tx ty).1 (finalTargets snap tx ty).2).2 s).2⟩],
              cmdIdx := s.cmdIdx + 1 }
          else s))).2 < 0 :=
    finalApproachY_neg (finalTargets snap tx ty).2
  rw [if_pos (Or.inl (ne_of_lt hx))]
  simp only [resultState, setPosition]
  rw [List.getLastD_concat]
  exact ⟨hx, hy⟩

/-- Witness for claim C3: a fault-free move from home to the in-bounds
target (100, 50) without snapping ends with a last driver command that is
negative on both axes. -/
theorem c3_witness :
    ((resultState (moveTo noFault 100 50 false home0)).log.getLastD ⟨0, 0, 0⟩).xSteps < 0 ∧
      ((resultState (moveTo noFault 100 50 false home0)).log.getLastD ⟨0, 0, 0⟩).ySteps < 0 :=
  c3_final_approach 100 50 false home0 (by
    show inLimits 100 50
    unfold inLimits X_LIMIT_UM Y_LIMIT_UM
    norm_num)

/-!  Claim C5: a repeated `move_to` issues zero net microsteps. -/

/-- Evaluating `finalTargets` with snapping enabled. -/
theorem finalTargets_true (tx ty : ℚ) :
    finalTargets true tx ty = (snapTarget tx, snapTarget ty) := rfl

/-- An accepted, fault-free `move_to` is the two legs in sequence. -/
theorem moveTo_noFault_as_legs (tx ty : ℚ) (snap : Bool) (s : Stage)
    (h : inLimits (finalTargets snap tx ty).1 (finalTargets snap tx ty).2) :
    moveTo noFault tx ty snap s =
      executeMove noFault (finalTargets snap tx ty).1 (finalTargets snap tx ty).2
        (resultState (executeMove noFault
          ((finalTargets snap tx ty).1 - BACKLASH_COMP_UM)
          ((finalTargets snap tx ty).2 + BACKLASH_COMP_UM) s)) := by
  unfold moveTo
  rw [if_pos h]
  simp only [executeMove_noFault, resultState, overshootOf]

/-- The overshoot leg, started with the counters exactly on a snapped
target: one driver command of (+105, +105) microsteps, counters moved
105 microsteps off the snapped target on each axis. -/
theorem executeMove_overshoot_from_snapped (tx ty : ℚ) (s : Stage)
    (hx : s.xPosSteps = toMicrosteps (snapTarget tx))
    (hy : s.yPosSteps = toMicrosteps (snapTarget ty)) :
    executeMove noFault (snapTarget tx - BACKLASH_COMP_UM)
        (snapTarget ty + BACKLASH_COMP_UM) s =
      .ok { s with
        xPosSteps := toMicrosteps (snapTarget tx) - 105,
        yPosSteps := toMicrosteps (snapTarget ty) + 105,
        log := s.log ++ [⟨DEFAULT_VELOCITY, 105, 105⟩],
        cmdIdx := s.cmdIdx + 1 } := by
  have e1 : legSteps (snapTarget tx - BACKLASH_COMP_UM) (snapTarget ty + BACKLASH_COMP_UM) s
      = (105, 105) := by
    unfold legSteps getPosition
    rw [hx, hy, snapTarget_repr, snapTarget_repr]
    rw [show -(snapTarget tx - BACKLASH_COMP_UM - snapTarget tx) = (10 : ℚ) by
          unfold BACKLASH_COMP_UM; ring,
        show snapTarget ty + BACKLASH_COMP_UM - snapTarget ty = (10 : ℚ) by
          unfold BACKLASH_COMP_UM; ring]
    rw [toMicrosteps_ten]
  have e2 : toMicrosteps (snapTarget tx - BACKLASH_COMP_UM)
      = toMicrosteps (snapTarget tx) - 105 := by
    conv_lhs => rw [← snapTarget_repr tx]
    unfold BACKLASH_COMP_UM
    exact toMicrosteps_mul_c_sub_ten _
  have e3 : toMicrosteps (snapTarget ty + BACKLASH_COMP_UM)
      = toMicrosteps (snapTarget ty) + 105 := by
    conv_lhs => rw [← snapTarget_repr ty]
    unfold BACKLASH_COMP_UM
    exact toMicrosteps_mul_c_add_ten _
  rw [executeMove_noFault, e1]
  simp only
  rw [if_pos (by norm_num : (105 : ℤ) ≠ 0 ∨ (105 : ℤ) ≠ 0)]
  unfold setPosition
  simp [e2, e3]

/-- The reverse-approach leg, started with the counters at the rounded
overshoot of a snapped target: one driver command of (-105, -105)
microsteps, counters back on the snapped target. -/
theorem executeMove_final_from_overshoot (tx ty : ℚ) (s : Stage)
    (hx : s.xPosSteps = toMicrosteps (snapTarget tx) - 105)
    (hy : s.yPosSteps = toMicrosteps (snapTarget ty) + 105) :
    executeMove noFault (snapTarget tx) (snapTarget ty) s =
      .ok { s with
        xPosSteps := toMicrosteps (snapTarget tx),
        yPosSteps := toMicrosteps (snapTarget ty),
        log := s.log ++ [⟨DEFAULT_VELOCITY, -105, -105⟩],
        cmdIdx := s.cmdIdx + 1 } := by
  have e1 : legSteps (snapTarget tx) (snapTarget ty) s = (-105, -105) := by
    unfold legSteps getPosition
    set K : ℤ := toMicrosteps (snapTarget tx) with hK
    set M : ℤ := toMicrosteps (snapTarget ty) with hM
    rw [hx, hy]
    have hrx : (K : ℚ) * MICRONS_PER_MICROSTEP = snapTarget tx := by
      rw [hK]; exact snapTarget_repr tx
    have hry : (M : ℚ) * MICRONS_PER_MICROSTEP = snapTarget ty := by
      rw [hM]; exact snapTarget_repr ty
    rw [← hrx, ← hry]
    rw [show -((K : ℚ) * MICRONS_PER_MICROSTEP - ((K - 105 : ℤ) : ℚ) * MICRONS_PER_MICROSTEP)
          = ((-105 : ℤ) : ℚ) * MICRONS_PER_MICROSTEP by push_cast; ring,
        show (M : ℚ) * MICRONS_PER_MICROSTEP - ((M + 105 : ℤ) : ℚ) * MICRONS_PER_MICROSTEP
          = ((-105 : ℤ) : ℚ) * MICRONS_PER_MICROSTEP by push_cast; ring]
    rw [toMicrosteps_mul_c]
  rw [executeMove_noFault, e1]
  simp only
  rw [if_pos (by norm_num : (-105 : ℤ) ≠ 0 ∨ (-105 : ℤ) ≠ 0)]
  unfold setPosition
  simp

/-- A fault-free `move_to` with snapping, started with the counters
exactly on the snapped target, issues exactly the commands (+105, +105)
and (-105, -105): zero net microsteps on each axis. -/
theorem moveTo_snapped_log (tx ty : ℚ) (s : Stage)
    (hx : s.xPosSteps = toMicrosteps (snapTarget tx))
    (hy : s.yPosSteps = toMicrosteps (snapTarget ty))
    (h : inLimits (snapTarget tx) (snapTarget ty)) :
    (resultState (moveTo noFault tx ty true s)).log
      = s.log ++ [⟨DEFAULT_VELOCITY, 105, 105⟩, ⟨DEFAULT_VELOCITY, -105, -105⟩] := by
  have h' : inLimits (finalTargets true tx ty).1 (finalTargets true tx ty).2 := h
  rw [moveTo_noFault_as_legs tx ty true s h']
  rw [finalTargets_true]
  simp only
  rw [executeMove_overshoot_from_snapped tx ty s hx hy]
  simp only [resultState]
  rw [executeMove_final_from_overshoot tx ty _ rfl rfl]
  simp only [resultState]
  simp

/-- Claim C5: calling `move_to(T)` twice in succession (default step
snapping, no intervening operations) issues zero net microsteps on the
second call: the signed step counts of the second call's commands sum to
zero on each axis, for every target and every starting state. -/
theorem c5_idempotent (s : Stage) (tx ty : ℚ) :
    netX (resultState (moveTo noFault tx ty true
          (resultState (moveTo noFault tx ty true s)))).log
        = netX (resultState (moveTo noFault tx ty true s)).log ∧
      netY (resultState (moveTo noFault tx ty true
          (resultState (moveTo noFault tx ty true s)))).log
        = netY (resultState (moveTo noFault tx ty true s)).log := by
  by_cases h : inLimits (finalTargets true tx ty).1 (finalTargets true tx ty).2
  · have hc := moveTo_noFault_counters tx ty true s h
    have hlog := moveTo_snapped_log tx ty (resultState (moveTo noFault tx ty true s))
      hc.1 hc.2 h
    rw [hlog]
    unfold netX netY
    constructor <;> simp
  · rw [moveTo_out_of_limits noFault tx ty true s h]
    simp only [resultState]
    rw [moveTo_out_of_limits noFault tx ty true s h]
    exact ⟨rfl, rfl⟩

/-!  Claim C8: a driver fault leaves the counters at the last confirmed
position. -/

/-- A faulted command leaves counters and log untouched. -/
theorem issueCmd_error (faults : ℕ → Bool) (c : Cmd) (s e : Stage)
    (h : issueCmd faults c s = .error e) :
    e = { s with cmdIdx := s.cmdIdx + 1 } := by
  unfold issueCmd at h
  split at h
  · cases h
    rfl
  · cases h

/-- A successfully issued command appends itself to the log. -/
theorem issueCmd_ok (faults : ℕ → Bool) (c : Cmd) (s s1 : Stage)
    (h : issueCmd faults c s = .ok s1) :
    s1 = { s with log := s.log ++ [c], cmdIdx := s.cmdIdx + 1 } := by
  unfold issueCmd at h
  split at h
  · cases h
  · cases h
    rfl

/-- If a leg aborts with a fault, the counters and the log are those of
the state the leg started from: `set_position` was never reached. -/
theorem executeMove_error (faults : ℕ → Bool) (tx ty : ℚ) (s e : Stage)
    (h : executeMove faults tx ty s = .error e) :
    e.xPosSteps = s.xPosSteps ∧ e.yPosSteps = s.yPosSteps ∧ e.log = s.log := by
  unfold executeMove at h
  split at h
  · rcases hic : issueCmd faults
        ⟨DEFAULT_VELOCITY, (legSteps tx ty s).1, (legSteps tx ty s).2⟩ s with e' | s1'
    · rw [hic] at h
      simp only at h
      cases h
      rw [issueCmd_error faults _ s e hic]
      exact ⟨rfl, rfl, rfl⟩
    · rw [hic] at h
      simp only at h
      cases h
  · cases h

/-- If a leg completes, the counters hold the conversion of its target
and the log grew by at most the one command of the leg. -/
theorem executeMove_ok_fields (faults : ℕ → Bool) (tx ty : ℚ) (s s1 : Stage)
    (h : executeMove faults tx ty s = .ok s1) :
    s1.xPosSteps = toMicrosteps tx ∧ s1.yPosSteps = toMicrosteps ty ∧
      s1.log.length ≤ s.log.length + 1 := by
  unfold executeMove at h
  split at h
  · rcases hic : issueCmd faults
        ⟨DEFAULT_VELOCITY, (legSteps tx ty s).1, (legSteps tx ty s).2⟩ s with e' | s1'
    · rw [hic] at h
      simp only at h
      cases h
    · rw [hic] at h
      simp only at h
      cases h
      rw [issueCmd_ok faults _ s s1' hic]
      refine ⟨rfl, rfl, ?_⟩
      unfold setPosition
      simp
  · cases h
    refine ⟨rfl, rfl, ?_⟩
    unfold setPosition
    simp

/-- The rounded overshoot sits strictly left of the rounded target. -/
theorem toMicrosteps_backlash_lt (f : ℚ) :
    toMicrosteps (f - BACKLASH_COMP_UM) < toMicrosteps f := by
  have hA : ((toMicrosteps (f - BACKLASH_COMP_UM) : ℚ))
      ≤ (f - BACKLASH_COMP_UM) / MICRONS_PER_MICROSTEP + 1 / 2 := pyRound_le _
  have hF : f / MICRONS_PER_MICROSTEP - 1 / 2 ≤ ((toMicrosteps f : ℚ)) := pyRound_ge _
  have hsplit : (f - BACKLASH_COMP_UM) / MICRONS_PER_MICROSTEP
      = f / MICRONS_PER_MICROSTEP - BACKLASH_COMP_UM / MICRONS_PER_MICROSTEP := by ring
  have hB : BACKLASH_COMP_UM / MICRONS_PER_MICROSTEP = 40000 / 381 := by
    unfold BACKLASH_COMP_UM MICRONS_PER_MICROSTEP
    norm_num
  have : ((toMicrosteps (f - BACKLASH_COMP_UM) : ℚ)) < ((toMicrosteps f : ℚ)) := by
    rw [hsplit, hB] at hA
    linarith
  exact_mod_cast this

/-- The rounded overshoot sits strictly above the rounded target. -/
theorem toMicrosteps_lt_backlash_add (f : ℚ) :
    toMicrosteps f < toMicrosteps (f + BACKLASH_COMP_UM) := by
  have hA : (f + BACKLASH_COMP_UM) / MICRONS_PER_MICROSTEP - 1 / 2
      ≤ ((toMicrosteps (f + BACKLASH_COMP_UM) : ℚ)) := pyRound_ge _
  have hF : ((toMicrosteps f : ℚ)) ≤ f / MICRONS_PER_MICROSTEP + 1 / 2 := pyRound_le _
  have hsplit : (f + BACKLASH_COMP_UM) / MICRONS_PER_MICROSTEP
      = f / MICRONS_PER_MICROSTEP + BACKLASH_COMP_UM / MICRONS_PER_MICROSTEP := by ring
  have hB : BACKLASH_COMP_UM / MICRONS_PER_MICROSTEP = 40000 / 381 := by
    unfold BACKLASH_COMP_UM MICRONS_PER_MICROSTEP
    norm_num
  have : ((toMicrosteps f : ℚ)) < ((toMicrosteps (f + BACKLASH_COMP_UM) : ℚ)) := by
    rw [hsplit, hB] at hA
    linarith
  exact_mod_cast this

/-- Claim C8: when a driver fault aborts `move_to`, nothing further is
issued and the counters sit at the last confirmed position — the
pre-move counters if the fault hit the overshoot leg, or the recorded
overshoot position (never the requested final target: it is strictly
beyond it on both axes) if the fault hit the reverse-approach leg. -/
theorem c8_fault_state (faults : ℕ → Bool) (tx ty : ℚ) (snap : Bool)
    (s s' : Stage) (h : moveTo faults tx ty snap s = .error s') :
    (s'.xPosSteps = s.xPosSteps ∧ s'.yPosSteps = s.yPosSteps ∧ s'.log = s.log) ∨
      (s'.xPosSteps = toMicrosteps ((finalTargets snap tx ty).1 - BACKLASH_COMP_UM) ∧
        s'.yPosSteps = toMicrosteps ((finalTargets snap tx ty).2 + BACKLASH_COMP_UM) ∧
        s'.log.length ≤ s.log.length + 1 ∧
        s'.xPosSteps < toMicrosteps (finalTargets snap tx ty).1 ∧
        toMicrosteps (finalTargets snap tx ty).2 < s'.yPosSteps) := by
  unfold moveTo at h
  by_cases hb : inLimits (finalTargets snap tx ty).1 (finalTargets snap tx ty).2
  · rw [if_pos hb] at h
    rcases hsc : executeMove faults
        (overshootOf (finalTargets snap tx ty).1 (finalTargets snap tx ty).2).1
        (overshootOf (finalTargets snap tx ty).1 (finalTargets snap tx ty).2).2 s with e | s1
    · rw [hsc] at h
      simp only at h
      cases h
      exact Or.inl (executeMove_error faults _ _ s s' hsc)
    · rw [hsc] at h
      simp only at h
      have he := executeMove_error faults _ _ s1 s' h
      have ho := executeMove_ok_fields faults _ _ s s1 hsc
      refine Or.inr ⟨?_, ?_, ?_, ?_, ?_⟩
      · rw [he.1, ho.1]
        rfl
      · rw [he.2.1, ho.2.1]
        rfl
      · rw [he.2.2]
        exact ho.2.2
      · rw [he.1, ho.1]
        exact toMicrosteps_backlash_lt _
      · rw [he.2.1, ho.2.1]
        exact toMicrosteps_lt_backlash_add _
  · rw [if_neg hb] at h
    cases h

/-- Witness for claim C8: with a driver that faults immediately, the
`return_to_home`-style call `move_to(0, 0)` from home aborts on its
first command, leaving the counters and the log untouched. -/
theorem c8_witness :
    ((⟨0, 0, [], 1⟩ : Stage).xPosSteps = home0.xPosSteps ∧
        (⟨0, 0, [], 1⟩ : Stage).yPosSteps = home0.yPosSteps ∧
        (⟨0, 0, [], 1⟩ : Stage).log = home0.log) ∨
      ((⟨0, 0, [], 1⟩ : Stage).xPosSteps
          = toMicrosteps ((finalTargets true 0 0).1 - BACKLASH_COMP_UM) ∧
        (⟨0, 0, [], 1⟩ : Stage).yPosSteps
          = toMicrosteps ((finalTargets true 0 0).2 + BACKLASH_COMP_UM) ∧
        (⟨0, 0, [], 1⟩ : Stage).log.length ≤ home0.log.length + 1 ∧
        (⟨0, 0, [], 1⟩ : Stage).xPosSteps < toMicrosteps (finalTargets true 0 0).1 ∧
        toMicrosteps (finalTargets true 0 0).2 < (⟨0, 0, [], 1⟩ : Stage).yPosSteps) :=
  c8_fault_state (fun _ => true) 0 0 true home0 ⟨0, 0, [], 1⟩ (by
    have hsnap : finalTargets true (0 : ℚ) 0 = (0, 0) := by
      unfold finalTargets
      rw [if_pos rfl, snapTarget_zero]
    have hin : inLimits (finalTargets true (0 : ℚ) 0).1 (finalTargets true (0 : ℚ) 0).2 := by
      rw [hsnap]
      unfold inLimits X_LIMIT_UM Y_LIMIT_UM
      norm_num
    have hleg : legSteps (overshootOf (finalTargets true (0 : ℚ) 0).1
          (finalTargets true (0 : ℚ) 0).2).1
        (overshootOf (finalTargets true (0 : ℚ) 0).1 (finalTargets true (0 : ℚ) 0).2).2 home0
        = (105, 105) := by
      rw [hsnap]
      unfold overshootOf legSteps getPosition home0
      rw [show -((((0 : ℚ), (0 : ℚ)).1 - BACKLASH_COMP_UM)
              - ((0 : ℤ) : ℚ) * MICRONS_PER_MICROSTEP) = 10 by
            unfold BACKLASH_COMP_UM; push_cast; ring,
          show (((0 : ℚ), (0 : ℚ)).2 + BACKLASH_COMP_UM)
              - ((0 : ℤ) : ℚ) * MICRONS_PER_MICROSTEP = 10 by
            unfold BACKLASH_COMP_UM; push_cast; ring]
      rw [toMicrosteps_ten]
    unfold moveTo
    rw [if_pos hin]
    unfold executeMove
    rw [hleg]
    simp only
    rw [if_pos (by norm_num : (105 : ℤ) ≠ 0 ∨ (105 : ℤ) ≠ 0)]
    unfold issueCmd home0
    simp)

end Qt3Move
